import Mathlib

set_option linter.unusedVariables false

namespace GisCollectors

/-! Model of the two-tier storage lifecycle subsystem of the data-collector
repository: local hot storage (`storage/local.py`), the S3 cold tier
(`storage/s3.py`), the archive task (`tasks/archive.py`), the collector run
loop (`collectors/base.py`), notifications (`utils/notify.py`), the token
cache (`utils/auth.py`) and the read path of the API server
(`api/server.py`).  Record payloads are modelled by their JSON-serialised
bodies (`String`); `json.dumps`/`json.loads` round-tripping is treated as
the identity on record bodies.  File modification times are epoch seconds
(`Int`); `datetime.fromtimestamp` comparisons are order-isomorphic to epoch
comparisons, so the archive cutoff test is carried out directly on epochs. -/

/-- Wall-clock timestamp with the fields `strftime` consumes when the
storage layer formats paths (`%Y/%m/%d` and `%H%M`). -/
structure DateTime where
  year : Nat
  month : Nat
  day : Nat
  hour : Nat
  minute : Nat
  deriving DecidableEq, Repr

/-- Zero-padded two-digit rendering, as `strftime` `%m`/`%d`/`%H`/`%M`. -/
def pad2 (n : Nat) : String :=
  if n < 10 then "0" ++ toString n else toString n

/-- Zero-padded four-digit rendering, as `strftime` `%Y`. -/
def pad4 (n : Nat) : String :=
  if n < 10 then "000" ++ toString n
  else if n < 100 then "00" ++ toString n
  else if n < 1000 then "0" ++ toString n
  else toString n

/-- The `%Y/%m/%d` directory components of a timestamp. -/
def dateParts (ts : DateTime) : List String :=
  [pad4 ts.year, pad2 ts.month, pad2 ts.day]

/-- The `%H%M` fine discriminator of a timestamp. -/
def timePart (ts : DateTime) : String :=
  pad2 ts.hour ++ pad2 ts.minute

/-- A file in the hot tier, addressed by its path parts relative to its
collector directory (`storage/local.py` lays files out as
`<collector>/<YYYY>/<MM>/<DD>/<collector>_<HHMM>.json` for dated entries
plus `<collector>/latest.json` for the pointer).  `mtime` is the epoch
modification time that `tasks/archive.py` consults via `stat().st_mtime`. -/
structure HotFile where
  rel : List String
  body : String
  mtime : Int
  deriving DecidableEq, Repr

/-- One collector directory under `LOCAL_DATA_DIR`. -/
structure CollectorDir where
  cname : String
  files : List HotFile
  deriving DecidableEq, Repr

/-- The hot tier data directory: the collector directories it contains. -/
abbrev DataDir := List CollectorDir

/-- Final component of a hot file's relative path. -/
def fileName (f : HotFile) : String := f.rel.getLastD ""

/-- Look up a file by its relative path (first match, as `Path.exists` plus
read does on a filesystem where paths are unique). -/
def getFile? : List HotFile → List String → Option HotFile
  | [], _ => none
  | f :: rest, rel => if f.rel = rel then some f else getFile? rest rel

/-- Overwrite (or create) the file at `rel`; models an atomic whole-file
replace, which is how `open(..., 'w')` followed by `json.dump` behaves at
the granularity the claims are about. -/
def setFile : List HotFile → List String → String → Int → List HotFile
  | [], rel, b, m => [⟨rel, b, m⟩]
  | f :: rest, rel, b, m =>
    if f.rel = rel then ⟨rel, b, m⟩ :: rest else f :: setFile rest rel b m

/-- Look up a collector directory by name. -/
def getDir? : DataDir → String → Option CollectorDir
  | [], _ => none
  | d :: ds, c => if d.cname = c then some d else getDir? ds c

/-- Write the file at `rel` inside collector directory `c`, creating the
directory as needed (`mkdir(parents=True, exist_ok=True)`). -/
def setDirFile : DataDir → String → List String → String → Int → DataDir
  | [], c, rel, b, m => [⟨c, [⟨rel, b, m⟩]⟩]
  | d :: ds, c, rel, b, m =>
    if d.cname = c then { d with files := setFile d.files rel b m } :: ds
    else d :: setDirFile ds c rel b m

/-- The relative path `LocalStorage.save` writes the dated entry to. -/
def datedRel (c : String) (ts : DateTime) : List String :=
  dateParts ts ++ [c ++ "_" ++ timePart ts ++ ".json"]

/-- Translation of `LocalStorage.save` (`storage/local.py`): write the dated
entry `<collector>/<Y>/<M>/<D>/<collector>_<HHMM>.json`, then overwrite
`<collector>/latest.json` with the same body; return the new directory
state together with the dated relative path.  `mt` is the wall-clock epoch
the filesystem stamps on the writes. -/
def save (c : String) (data : String) (ts : DateTime) (mt : Int) (dd : DataDir) :
    DataDir × List String :=
  let rel := datedRel c ts
  let dd1 := setDirFile dd c rel data mt
  let dd2 := setDirFile dd1 c ["latest.json"] data mt
  (dd2, rel)

/-- Translation of `LocalStorage.save_append` (`storage/local.py`): append
each record as a line to the dated
`<collector>/<Y>/<M>/<D>/<collector>_<YYYYMMDD>.jsonl` file.  It does not
touch `latest.json`. -/
def saveAppend (c : String) (records : List String) (ts : DateTime) (mt : Int)
    (dd : DataDir) : DataDir × List String :=
  let rel := dateParts ts ++
    [c ++ "_" ++ pad4 ts.year ++ pad2 ts.month ++ pad2 ts.day ++ ".jsonl"]
  let old :=
    match (getDir? dd c).bind (fun d => getFile? d.files rel) with
    | some f => f.body
    | none => ""
  let body := old ++ String.join (records.map (fun r => r ++ "\n"))
  (setDirFile dd c rel body mt, rel)

/-- Translation of `LocalStorage.get_latest` (`storage/local.py`): read
`<collector>/latest.json` if it exists, else `None`. -/
def getLatest (c : String) (dd : DataDir) : Option String :=
  ((getDir? dd c).bind (fun d => getFile? d.files ["latest.json"])).map
    (fun f => f.body)

theorem getFile_setFile (fs : List HotFile) (rel : List String) (b : String) (m : Int) :
    getFile? (setFile fs rel b m) rel = some ⟨rel, b, m⟩ := by
  induction fs with
  | nil => simp [setFile, getFile?]
  | cons f rest ih =>
    by_cases h : f.rel = rel
    · simp [setFile, h, getFile?]
    · simp only [setFile, h, if_false]
      simpa [getFile?, h] using ih

theorem getFile_setFile_ne (fs : List HotFile) (rel rel' : List String) (b : String)
    (m : Int) (h : rel' ≠ rel) :
    getFile? (setFile fs rel b m) rel' = getFile? fs rel' := by
  induction fs with
  | nil => simp [setFile, getFile?, Ne.symm h]
  | cons f rest ih =>
    by_cases hf : f.rel = rel
    · simp [setFile, hf, getFile?, Ne.symm h, hf.symm ▸ (Ne.symm h)]
    · simp only [setFile, hf, if_false]
      by_cases hf' : f.rel = rel'
      · simp [getFile?, hf']
      · simpa [getFile?, hf'] using ih

theorem getLatest_setDirFile_latest (dd : DataDir) (c : String) (b : String) (m : Int) :
    getLatest c (setDirFile dd c ["latest.json"] b m) = some b := by
  induction dd with
  | nil => simp [setDirFile, getLatest, getDir?, getFile?]
  | cons d ds ih =>
    by_cases h : d.cname = c
    · simp [setDirFile, h, getLatest, getDir?, getFile_setFile]
    · simp only [setDirFile, h, if_false]
      simpa [getLatest, getDir?, h] using ih

/-- After `save`, the latest pointer holds the saved body. -/
theorem getLatest_save (c : String) (data : String) (ts : DateTime) (mt : Int)
    (dd : DataDir) : getLatest c (save c data ts mt dd).1 = some data := by
  simp [save, getLatest_setDirFile_latest]

/-- The dated relative path never names `latest.json` as its final
component: the file name always carries the `<collector>_` stem. -/
theorem setDirFile_not_latest_getLatest (dd : DataDir) (c c' : String)
    (rel : List String) (b : String) (m : Int) (h : rel ≠ ["latest.json"]) :
    getLatest c' (setDirFile dd c rel b m) = getLatest c' dd := by
  induction dd with
  | nil =>
    by_cases hc : c = c' <;>
      simp [setDirFile, getLatest, getDir?, getFile?, hc, h, Ne.symm h]
  | cons d ds ih =>
    by_cases hd : d.cname = c
    · by_cases hc : d.cname = c'
      · rw [hd] at hc
        simp [setDirFile, hd, getLatest, getDir?, hc,
          getFile_setFile_ne _ _ _ _ _ (Ne.symm h)]
      · rw [hd] at hc
        simp [setDirFile, hd, getLatest, getDir?, hc]
    · simp only [setDirFile, hd, if_false]
      by_cases hc : d.cname = c'
      · simp [getLatest, getDir?, hc]
      · simpa [getLatest, getDir?, hc] using ih

/-- `save_append` leaves every latest pointer untouched. -/
theorem getLatest_saveAppend (c c' : String) (records : List String) (ts : DateTime)
    (mt : Int) (dd : DataDir) :
    getLatest c' (saveAppend c records ts mt dd).1 = getLatest c' dd := by
  have h : dateParts ts ++
      [c ++ "_" ++ pad4 ts.year ++ pad2 ts.month ++ pad2 ts.day ++ ".jsonl"] ≠
      ["latest.json"] := by
    simp [dateParts]
  simpa [saveAppend] using
    setDirFile_not_latest_getLatest dd c c' _ _ mt h

/-! Cold tier (`storage/s3.py`).  `boto3` raises `botocore` `ClientError`
for HTTP-level error responses from the service (404 from `head_object`,
access denied, ...) and a connection-level exception
(`EndpointConnectionError` and friends, which are not `ClientError`
subclasses) when the endpoint is unreachable.  `S3Storage.file_exists`
catches only `self.ClientError`, so connection-level failures escape it. -/

/-- Outcome classes of one S3 request. -/
inductive S3Err where
  | clientErr : S3Err
  | connErr : S3Err
  deriving DecidableEq, Repr

/-- A Python exception escaping a modelled function. -/
inductive PyErr where
  | connError : PyErr
  deriving DecidableEq, Repr

/-- The cold tier: its stored objects plus the behaviour of the network
during the modelled run.  `reachable = false` means every request fails
with a connection-level error; `uploadOk = false` means `upload_file`'s
transfer raises (caught inside `upload_file`). -/
structure ColdTier where
  objects : List (String × String)
  reachable : Bool
  uploadOk : Bool
  deriving DecidableEq, Repr

/-- Keys of the objects currently stored in the cold tier. -/
def ColdTier.keys (c : ColdTier) : List String := c.objects.map (fun o => o.1)

/-- Overwrite-or-insert an object, as `put_object` / a completed upload. -/
def putObject : List (String × String) → String → String → List (String × String)
  | [], k, b => [(k, b)]
  | o :: os, k, b => if o.1 = k then (k, b) :: os else o :: putObject os k b

/-- Result of `head_object`: success, an HTTP-level `ClientError` (404 when
the key is absent), or a connection-level error when unreachable. -/
def headObject (c : ColdTier) (key : String) : Except S3Err Unit :=
  if c.reachable then
    if key ∈ c.keys then Except.ok () else Except.error S3Err.clientErr
  else Except.error S3Err.connErr

/-- Translation of `S3Storage.file_exists` (`storage/s3.py`): `head_object`
in a `try` that catches only `ClientError` (returning `False`); any other
exception — in particular a connection-level error — propagates. -/
def fileExists (c : ColdTier) (key : String) : Except PyErr Bool :=
  match headObject c key with
  | Except.ok _ => Except.ok true
  | Except.error S3Err.clientErr => Except.ok false
  | Except.error S3Err.connErr => Except.error PyErr.connError

/-- Translation of `S3Storage.upload_file` (`storage/s3.py`): the transfer
is wrapped in `try`/`except Exception`, so it never raises; it returns
whether the upload succeeded, and on success the object is stored. -/
def uploadFile (c : ColdTier) (key : String) (b : String) : ColdTier × Bool :=
  if c.reachable && c.uploadOk then
    ({ c with objects := putObject c.objects key b }, true)
  else (c, false)

/-- Translation of `S3Storage.get_file` (`storage/s3.py`): `get_object`;
a `NoSuchKey` `ClientError` yields `None`; a connection-level error
propagates. -/
def getFileS3 (c : ColdTier) (key : String) : Except PyErr (Option String) :=
  if c.reachable then Except.ok (c.objects.lookup key)
  else Except.error PyErr.connError

/-- Translation of `S3Storage.get_latest` via `get_json`/`get_file`:
fetch `<collector>/latest.json` (body parsing modelled as the identity). -/
def coldGetLatest (c : ColdTier) (name : String) : Except PyErr (Option String) :=
  getFileS3 c (name ++ "/latest.json")

/-- Statistics of one `sync_directory` pass. -/
structure SyncStats where
  uploaded : Nat
  skipped : Nat
  failed : Nat
  deriving DecidableEq, Repr

/-- Result of a sync walk: `err` is the exception that aborted the walk,
if any; cold-tier uploads performed before an abort persist. -/
structure SyncOut where
  err : Option PyErr
  stats : SyncStats
  cold : ColdTier
  deriving DecidableEq, Repr

/-- Name predicate of the `'**/*.json'` glob used by sync and cleanup: the
file name ends with `.json` (stated on the underlying character lists so
that it evaluates by kernel reduction). -/
def isJsonName (s : String) : Bool := ".json".data.isSuffixOf s.data

/-- The S3 key of a hot file: `f"{s3_prefix}/{rel_path}"`. -/
def s3KeyOf (pre : String) (f : HotFile) : String :=
  pre ++ "/" ++ String.intercalate "/" f.rel

/-- Is this hot file a dated entry walked by sync (a `*.json` glob match
other than `latest.json`)? -/
def isDatedJson (f : HotFile) : Bool :=
  isJsonName (fileName f) && fileName f != "latest.json"

/-- Core walk of `S3Storage.sync_directory` (`storage/s3.py`) over the
`'**/*.json'` glob of one collector directory: skip `latest.json`; with
`skip` set, consult `file_exists` and count a hit as skipped; otherwise
upload, counting success as uploaded and a caught upload failure as
failed.  A connection-level error from `file_exists` propagates, aborting
the walk (uploads already performed persist). -/
def syncFiles (cold : ColdTier) (pre : String) (skip : Bool) :
    List HotFile → SyncOut
  | [] => ⟨none, ⟨0, 0, 0⟩, cold⟩
  | f :: rest =>
    if isJsonName (fileName f) = false then syncFiles cold pre skip rest
    else if fileName f = "latest.json" then syncFiles cold pre skip rest
    else
      let key := s3KeyOf pre f
      if skip then
        match fileExists cold key with
        | Except.error e => ⟨some e, ⟨0, 0, 0⟩, cold⟩
        | Except.ok true =>
          let r := syncFiles cold pre skip rest
          { r with stats := { r.stats with skipped := r.stats.skipped + 1 } }
        | Except.ok false =>
          let u := uploadFile cold key f.body
          let r := syncFiles u.1 pre skip rest
          if u.2 then
            { r with stats := { r.stats with uploaded := r.stats.uploaded + 1 } }
          else
            { r with stats := { r.stats with failed := r.stats.failed + 1 } }
      else
        let u := uploadFile cold key f.body
        let r := syncFiles u.1 pre skip rest
        if u.2 then
          { r with stats := { r.stats with uploaded := r.stats.uploaded + 1 } }
        else
          { r with stats := { r.stats with failed := r.stats.failed + 1 } }

/-- `S3Storage.sync_directory` on one collector directory: walks its glob
with the directory name as prefix (a missing directory yields zero stats,
which the empty file list also models). -/
def syncDirectory (cold : ColdTier) (d : CollectorDir) (skip : Bool) : SyncOut :=
  syncFiles cold d.cname skip d.files

/-- Statistics of the retention phase. -/
structure CleanStats where
  deleted : Nat
  kept : Nat
  deriving DecidableEq, Repr

/-- Result of the retention walk over one collector directory:
exception (if the walk aborted), counters, and the surviving files.
Deletions performed before an abort persist. -/
structure CleanFilesOut where
  err : Option PyErr
  stats : CleanStats
  files : List HotFile
  deriving DecidableEq, Repr

/-- Inner walk of `ArchiveTask._cleanup_local` (`tasks/archive.py`) over the
`'**/*.json'` glob of one collector directory: `latest.json` is counted as
kept and skipped; an entry older than the cutoff is deleted only when
`file_exists` answers `True`, kept (and counted) when it answers `False`;
entries at or after the cutoff are kept.  A connection-level error from
`file_exists` propagates and aborts the walk; earlier deletions persist. -/
def cleanFiles (cold : ColdTier) (pre : String) (cutoff : Int) :
    List HotFile → CleanFilesOut
  | [] => ⟨none, ⟨0, 0⟩, []⟩
  | f :: rest =>
    if isJsonName (fileName f) = false then
      let r := cleanFiles cold pre cutoff rest
      { r with files := f :: r.files }
    else if fileName f = "latest.json" then
      let r := cleanFiles cold pre cutoff rest
      { r with stats := { r.stats with kept := r.stats.kept + 1 },
               files := f :: r.files }
    else if f.mtime < cutoff then
      match fileExists cold (s3KeyOf pre f) with
      | Except.error e => ⟨some e, ⟨0, 0⟩, f :: rest⟩
      | Except.ok true =>
        let r := cleanFiles cold pre cutoff rest
        { r with stats := { r.stats with deleted := r.stats.deleted + 1 } }
      | Except.ok false =>
        let r := cleanFiles cold pre cutoff rest
        { r with stats := { r.stats with kept := r.stats.kept + 1 },
                 files := f :: r.files }
    else
      let r := cleanFiles cold pre cutoff rest
      { r with stats := { r.stats with kept := r.stats.kept + 1 },
               files := f :: r.files }

/-- Result of `_cleanup_local` over the whole data directory. -/
structure CleanOut where
  err : Option PyErr
  stats : CleanStats
  dd : DataDir
  deriving DecidableEq, Repr

/-- Translation of `ArchiveTask._cleanup_local` (`tasks/archive.py`): walk
every collector directory; an exception escaping one directory's walk
aborts the whole pass (later directories untouched, earlier deletions
persist).  Empty-directory removal only deletes directories, never files,
so it is not reflected in the file-level state. -/
def cleanupLocal (cold : ColdTier) (cutoff : Int) : DataDir → CleanOut
  | [] => ⟨none, ⟨0, 0⟩, []⟩
  | d :: ds =>
    let r := cleanFiles cold d.cname cutoff d.files
    match r.err with
    | some e => ⟨some e, ⟨0, 0⟩, { d with files := r.files } :: ds⟩
    | none =>
      let rest := cleanupLocal cold cutoff ds
      ⟨rest.err,
       ⟨r.stats.deleted + rest.stats.deleted, r.stats.kept + rest.stats.kept⟩,
       { d with files := r.files } :: rest.dd⟩

/-- Result of `_sync_to_s3` over the whole data directory. -/
structure SyncAllOut where
  err : Option PyErr
  stats : SyncStats
  cold : ColdTier
  deriving DecidableEq, Repr

/-- Translation of `ArchiveTask._sync_to_s3` (`tasks/archive.py`): call
`sync_directory(collector_dir, collector_name, skip_existing=True)` for
every collector directory and accumulate the statistics.  An exception
escaping one directory's sync aborts the whole pass. -/
def syncToS3 (cold : ColdTier) : DataDir → SyncAllOut
  | [] => ⟨none, ⟨0, 0, 0⟩, cold⟩
  | d :: ds =>
    let r := syncDirectory cold d true
    match r.err with
    | some e => ⟨some e, ⟨0, 0, 0⟩, r.cold⟩
    | none =>
      let rest := syncToS3 r.cold ds
      ⟨rest.err,
       ⟨r.stats.uploaded + rest.stats.uploaded,
        r.stats.skipped + rest.stats.skipped,
        r.stats.failed + rest.stats.failed⟩,
       rest.cold⟩

/-- The aggregate `ArchiveTask.run` returns on a completed pass. -/
structure ArchiveResult where
  sync : SyncStats
  cleanup : CleanStats
  deriving DecidableEq, Repr

/-- Full outcome of `ArchiveTask.run`: the exception that escaped (if any),
the returned value (`none` both when archiving is skipped and when an
exception escaped), and the final hot and cold states. -/
structure RunOut where
  err : Option PyErr
  ret : Option ArchiveResult
  dd : DataDir
  cold : Option ColdTier
  deriving DecidableEq, Repr

/-- Translation of `ArchiveTask.run` (`tasks/archive.py`): return `None`
without touching either tier when `ARCHIVE_ENABLED` is false or no S3
storage was initialised (`self.s3 is None`); otherwise run the sync phase
then the retention phase with cutoff `now - retention_days` (in epoch
seconds, `timedelta(days=n)` being `n * 86400` seconds) and return
`{'sync': ..., 'cleanup': ...}`. -/
def archiveRun (enabled : Bool) (retentionDays : Nat) (s3 : Option ColdTier)
    (dd : DataDir) (now : Int) : RunOut :=
  if enabled = false then ⟨none, none, dd, s3⟩
  else
    match s3 with
    | none => ⟨none, none, dd, none⟩
    | some cold =>
      let s := syncToS3 cold dd
      match s.err with
      | some e => ⟨some e, none, dd, some s.cold⟩
      | none =>
        let c := cleanupLocal s.cold (now - (retentionDays : Int) * 86400) dd
        match c.err with
        | some e => ⟨some e, none, c.dd, some s.cold⟩
        | none => ⟨none, some ⟨s.stats, c.stats⟩, c.dd, some s.cold⟩

/-- Number of dated entries (glob matches other than `latest.json`) in a
file list. -/
def datedCount (fs : List HotFile) : Nat :=
  (fs.filter (fun f => isDatedJson f)).length

/-- Number of `'**/*.json'` glob matches (`latest.json` included) in a
file list. -/
def jsonCount (fs : List HotFile) : Nat :=
  (fs.filter (fun f => isJsonName (fileName f))).length

theorem isDatedJson_elim (f : HotFile) (h : isDatedJson f = true) :
    isJsonName (fileName f) = true ∧ fileName f ≠ "latest.json" := by
  unfold isDatedJson at h
  rw [Bool.and_eq_true] at h
  refine ⟨h.1, ?_⟩
  simpa using h.2

theorem uploadFile_reachable (c : ColdTier) (k b : String) :
    (uploadFile c k b).1.reachable = c.reachable := by
  unfold uploadFile; split <;> rfl

theorem uploadFile_uploadOk (c : ColdTier) (k b : String) :
    (uploadFile c k b).1.uploadOk = c.uploadOk := by
  unfold uploadFile; split <;> rfl

theorem fileExists_reachable (c : ColdTier) (key : String) (h : c.reachable = true) :
    fileExists c key = Except.ok (decide (key ∈ c.keys)) := by
  unfold fileExists headObject
  by_cases hk : key ∈ c.keys <;> simp [h, hk]

theorem fileExists_unreachable (c : ColdTier) (key : String)
    (h : c.reachable = false) : fileExists c key = Except.error PyErr.connError := by
  unfold fileExists headObject
  simp [h]

theorem mem_keys_putObject_self (os : List (String × String)) (k b : String) :
    k ∈ (putObject os k b).map (fun o => o.1) := by
  induction os with
  | nil => simp [putObject]
  | cons o os ih =>
    by_cases h : o.1 = k
    · simp [putObject, h]
    · simp only [putObject, h, if_false, List.map_cons, List.mem_cons]
      exact Or.inr ih

theorem mem_keys_putObject_mono (os : List (String × String)) (k b k' : String)
    (h : k' ∈ os.map (fun o => o.1)) :
    k' ∈ (putObject os k b).map (fun o => o.1) := by
  induction os with
  | nil => simp at h
  | cons o os ih =>
    by_cases ho : o.1 = k
    · simp only [putObject, ho, if_true, List.map_cons, List.mem_cons]
      simp only [List.map_cons, List.mem_cons] at h
      rcases h with h | h
      · exact Or.inl (h.trans ho)
      · exact Or.inr h
    · simp only [putObject, ho, if_false, List.map_cons, List.mem_cons]
      simp only [List.map_cons, List.mem_cons] at h
      rcases h with h | h
      · exact Or.inl h
      · exact Or.inr (ih h)

theorem uploadFile_keys_mono (c : ColdTier) (k b k' : String) (h : k' ∈ c.keys) :
    k' ∈ (uploadFile c k b).1.keys := by
  unfold uploadFile
  split
  · exact mem_keys_putObject_mono _ _ _ _ h
  · exact h

theorem uploadFile_mem_of_ok (c : ColdTier) (k b : String)
    (h : (uploadFile c k b).2 = true) : k ∈ (uploadFile c k b).1.keys := by
  by_cases hc : (c.reachable && c.uploadOk) = true
  · simp only [uploadFile, hc, if_true]
    exact mem_keys_putObject_self _ _ _
  · simp [uploadFile, hc] at h

theorem uploadFile_ok_of_flags (c : ColdTier) (k b : String)
    (hr : c.reachable = true) (hu : c.uploadOk = true) :
    (uploadFile c k b).2 = true := by
  simp [uploadFile, hr, hu]

theorem syncFiles_cold_reachable (pre : String) (skip : Bool) (fs : List HotFile) :
    ∀ cold : ColdTier, (syncFiles cold pre skip fs).cold.reachable = cold.reachable := by
  induction fs with
  | nil => intro cold; rfl
  | cons f rest ih =>
    intro cold
    simp only [syncFiles]
    by_cases hj : isJsonName (fileName f) = false
    · simpa [hj] using ih cold
    · rw [if_neg hj]
      by_cases hl : fileName f = "latest.json"
      · simpa [hl] using ih cold
      · rw [if_neg hl]
        by_cases hs : skip = true
        · rw [if_pos hs]
          cases hfe : fileExists cold (s3KeyOf pre f) with
          | error e => simp
          | ok b =>
            cases b
            · simp only []
              by_cases hu : (uploadFile cold (s3KeyOf pre f) f.body).2 = true <;>
                simp [hu, ih, uploadFile_reachable]
            · simpa using ih cold
        · rw [if_neg hs]
          by_cases hu : (uploadFile cold (s3KeyOf pre f) f.body).2 = true <;>
            simp [hu, ih, uploadFile_reachable]

theorem syncFiles_cold_uploadOk (pre : String) (skip : Bool) (fs : List HotFile) :
    ∀ cold : ColdTier, (syncFiles cold pre skip fs).cold.uploadOk = cold.uploadOk := by
  induction fs with
  | nil => intro cold; rfl
  | cons f rest ih =>
    intro cold
    simp only [syncFiles]
    by_cases hj : isJsonName (fileName f) = false
    · simpa [hj] using ih cold
    · rw [if_neg hj]
      by_cases hl : fileName f = "latest.json"
      · simpa [hl] using ih cold
      · rw [if_neg hl]
        by_cases hs : skip = true
        · rw [if_pos hs]
          cases hfe : fileExists cold (s3KeyOf pre f) with
          | error e => simp
          | ok b =>
            cases b
            · simp only []
              by_cases hu : (uploadFile cold (s3KeyOf pre f) f.body).2 = true <;>
                simp [hu, ih, uploadFile_uploadOk]
            · simpa using ih cold
        · rw [if_neg hs]
          by_cases hu : (uploadFile cold (s3KeyOf pre f) f.body).2 = true <;>
            simp [hu, ih, uploadFile_uploadOk]

theorem syncFiles_err_none (pre : String) (skip : Bool) (fs : List HotFile) :
    ∀ cold : ColdTier, cold.reachable = true →
      (syncFiles cold pre skip fs).err = none := by
  induction fs with
  | nil => intro cold _; rfl
  | cons f rest ih =>
    intro cold hr
    simp only [syncFiles]
    by_cases hj : isJsonName (fileName f) = false
    · simpa [hj] using ih cold hr
    · rw [if_neg hj]
      by_cases hl : fileName f = "latest.json"
      · simpa [hl] using ih cold hr
      · rw [if_neg hl]
        have hup : (uploadFile cold (s3KeyOf pre f) f.body).1.reachable = true := by
          rw [uploadFile_reachable]; exact hr
        by_cases hs : skip = true
        · rw [if_pos hs]
          rw [fileExists_reachable cold _ hr]
          by_cases hk : s3KeyOf pre f ∈ cold.keys
          · simpa [hk] using ih cold hr
          · rw [decide_eq_false hk]
            by_cases hu : (uploadFile cold (s3KeyOf pre f) f.body).2 = true <;>
              simp [hu, ih _ hup]
        · rw [if_neg hs]
          by_cases hu : (uploadFile cold (s3KeyOf pre f) f.body).2 = true <;>
            simp [hu, ih _ hup]

theorem syncFiles_keys_mono (pre : String) (skip : Bool) (fs : List HotFile) :
    ∀ (cold : ColdTier) (k : String), k ∈ cold.keys →
      k ∈ (syncFiles cold pre skip fs).cold.keys := by
  induction fs with
  | nil => intro cold k h; exact h
  | cons f rest ih =>
    intro cold k h
    simp only [syncFiles]
    by_cases hj : isJsonName (fileName f) = false
    · simpa [hj] using ih cold k h
    · rw [if_neg hj]
      by_cases hl : fileName f = "latest.json"
      · simpa [hl] using ih cold k h
      · rw [if_neg hl]
        have hmono : k ∈ (uploadFile cold (s3KeyOf pre f) f.body).1.keys :=
          uploadFile_keys_mono _ _ _ _ h
        by_cases hs : skip = true
        · rw [if_pos hs]
          cases hfe : fileExists cold (s3KeyOf pre f) with
          | error e => simpa using h
          | ok b =>
            cases b
            · simp only []
              by_cases hu : (uploadFile cold (s3KeyOf pre f) f.body).2 = true <;>
                simp [hu, ih _ _ hmono]
            · simpa using ih cold k h
        · rw [if_neg hs]
          by_cases hu : (uploadFile cold (s3KeyOf pre f) f.body).2 = true <;>
            simp [hu, ih _ _ hmono]

theorem syncFiles_covers (pre : String) (fs : List HotFile) :
    ∀ cold : ColdTier, cold.reachable = true → cold.uploadOk = true →
      ∀ f ∈ fs, isDatedJson f = true →
        s3KeyOf pre f ∈ (syncFiles cold pre true fs).cold.keys := by
  induction fs with
  | nil => intro cold _ _ f hf; simp at hf
  | cons g rest ih =>
    intro cold hr hu f hf hd
    have hflags : (uploadFile cold (s3KeyOf pre g) g.body).1.reachable = true ∧
        (uploadFile cold (s3KeyOf pre g) g.body).1.uploadOk = true := by
      rw [uploadFile_reachable, uploadFile_uploadOk]; exact ⟨hr, hu⟩
    rcases List.mem_cons.1 hf with hfg | hfrest
    · subst hfg
      have hde := isDatedJson_elim f hd
      simp only [syncFiles, hde.1, if_neg hde.2, if_true]
      rw [if_neg (by simp [hde.1])]
      rw [fileExists_reachable cold _ hr]
      by_cases hk : s3KeyOf pre f ∈ cold.keys
      · rw [decide_eq_true hk]
        simpa using syncFiles_keys_mono pre true rest cold _ hk
      · rw [decide_eq_false hk]
        have hok := uploadFile_ok_of_flags cold (s3KeyOf pre f) f.body hr hu
        have hmem := uploadFile_mem_of_ok cold (s3KeyOf pre f) f.body hok
        simp only [hok, if_true]
        simpa using syncFiles_keys_mono pre true rest _ _ hmem
    · simp only [syncFiles]
      by_cases hj : isJsonName (fileName g) = false
      · simpa [hj] using ih cold hr hu f hfrest hd
      · rw [if_neg hj]
        by_cases hl : fileName g = "latest.json"
        · simpa [hl] using ih cold hr hu f hfrest hd
        · rw [if_neg hl, if_pos (by trivial)]
          rw [fileExists_reachable cold _ hr]
          by_cases hk : s3KeyOf pre g ∈ cold.keys
          · simpa [hk] using ih cold hr hu f hfrest hd
          · rw [decide_eq_false hk]
            by_cases hub : (uploadFile cold (s3KeyOf pre g) g.body).2 = true <;>
              simp [hub, ih _ hflags.1 hflags.2 f hfrest hd]

theorem syncFiles_all_present (pre : String) (fs : List HotFile) :
    ∀ cold : ColdTier, cold.reachable = true →
      (∀ f ∈ fs, isDatedJson f = true → s3KeyOf pre f ∈ cold.keys) →
      syncFiles cold pre true fs = ⟨none, ⟨0, datedCount fs, 0⟩, cold⟩ := by
  induction fs with
  | nil => intro cold _ _; simp [syncFiles, datedCount]
  | cons f rest ih =>
    intro cold hr hall
    have hrest : ∀ g ∈ rest, isDatedJson g = true → s3KeyOf pre g ∈ cold.keys :=
      fun g hg => hall g (List.mem_cons_of_mem _ hg)
    simp only [syncFiles]
    by_cases hj : isJsonName (fileName f) = false
    · have hnd : isDatedJson f = false := by simp [isDatedJson, hj]
      rw [if_pos hj, ih cold hr hrest]
      simp [datedCount, hnd]
    · rw [if_neg hj]
      by_cases hl : fileName f = "latest.json"
      · have hnd : isDatedJson f = false := by simp [isDatedJson, hl]
        rw [if_pos hl, ih cold hr hrest]
        simp [datedCount, hnd]
      · have hd : isDatedJson f = true := by
          simp only [isDatedJson, Bool.and_eq_true, bne_iff_ne]
          exact ⟨by simpa using hj, hl⟩
        rw [if_neg hl, if_pos (by trivial), fileExists_reachable cold _ hr]
        have hk := hall f (List.mem_cons_self _ _) hd
        rw [decide_eq_true hk]
        rw [ih cold hr hrest]
        simp [datedCount, hd]

theorem syncFiles_stats_total (pre : String) (skip : Bool) (fs : List HotFile) :
    ∀ cold : ColdTier, (syncFiles cold pre skip fs).err = none →
      (syncFiles cold pre skip fs).stats.uploaded +
        (syncFiles cold pre skip fs).stats.skipped +
        (syncFiles cold pre skip fs).stats.failed = datedCount fs := by
  induction fs with
  | nil => intro cold _; simp [syncFiles, datedCount]
  | cons f rest ih =>
    intro cold herr
    simp only [syncFiles] at herr ⊢
    by_cases hj : isJsonName (fileName f) = false
    · have hnd : isDatedJson f = false := by simp [isDatedJson, hj]
      rw [if_pos hj] at herr ⊢
      rw [ih cold herr]
      simp [datedCount, hnd]
    · rw [if_neg hj] at herr ⊢
      by_cases hl : fileName f = "latest.json"
      · have hnd : isDatedJson f = false := by simp [isDatedJson, hl]
        rw [if_pos hl] at herr ⊢
        rw [ih cold herr]
        simp [datedCount, hnd]
      · have hd : isDatedJson f = true := by
          simp only [isDatedJson, Bool.and_eq_true, bne_iff_ne]
          exact ⟨by simpa using hj, hl⟩
        rw [if_neg hl] at herr ⊢
        have hcount : datedCount (f :: rest) = datedCount rest + 1 := by
          simp [datedCount, hd]
        by_cases hs : skip = true
        · rw [if_pos hs] at herr ⊢
          cases hfe : fileExists cold (s3KeyOf pre f) with
          | error e => rw [hfe] at herr; simp at herr
          | ok b =>
            rw [hfe] at herr
            cases b
            · dsimp only at herr ⊢
              by_cases hu : (uploadFile cold (s3KeyOf pre f) f.body).2 = true
              · rw [if_pos hu] at herr ⊢
                dsimp only at herr ⊢
                have := ih (uploadFile cold (s3KeyOf pre f) f.body).1 herr
                simp only [hcount]
                omega
              · rw [if_neg hu] at herr ⊢
                dsimp only at herr ⊢
                have := ih (uploadFile cold (s3KeyOf pre f) f.body).1 herr
                simp only [hcount]
                omega
            · dsimp only at herr ⊢
              have := ih cold herr
              simp only [hcount]
              omega
        · rw [if_neg hs] at herr ⊢
          by_cases hu : (uploadFile cold (s3KeyOf pre f) f.body).2 = true
          · rw [if_pos hu] at herr ⊢
            have := ih (uploadFile cold (s3KeyOf pre f) f.body).1 herr
            simp only [hcount]
            omega
          · rw [if_neg hu] at herr ⊢
            have := ih (uploadFile cold (s3KeyOf pre f) f.body).1 herr
            simp only [hcount]
            omega

/-- All hot entries, tagged with their collector name. -/
def hotEntries (dd : DataDir) : List (String × HotFile) :=
  dd.flatMap (fun d => d.files.map (fun f => (d.cname, f)))

/-- Total `'**/*.json'` glob matches across the data directory. -/
def jsonCountDD (dd : DataDir) : Nat :=
  (dd.map (fun d => jsonCount d.files)).sum

theorem rel_latest_fileName (f : HotFile) (h : f.rel = ["latest.json"]) :
    fileName f = "latest.json" := by
  simp [fileName, h]

theorem cleanFiles_preserves (cold : ColdTier) (pre : String) (cutoff : Int)
    (fs : List HotFile) (f : HotFile) (hf : f ∈ fs)
    (hcond : ¬(isDatedJson f = true ∧ f.mtime < cutoff ∧
      fileExists cold (s3KeyOf pre f) = Except.ok true)) :
    f ∈ (cleanFiles cold pre cutoff fs).files := by
  induction fs with
  | nil => simp at hf
  | cons g rest ih =>
    rcases List.mem_cons.1 hf with hfg | hfrest
    · subst hfg
      simp only [cleanFiles]
      by_cases hj : isJsonName (fileName f) = false
      · simp [hj]
      · rw [if_neg hj]
        by_cases hl : fileName f = "latest.json"
        · simp [hl]
        · rw [if_neg hl]
          by_cases hm : f.mtime < cutoff
          · rw [if_pos hm]
            cases hfe : fileExists cold (s3KeyOf pre f) with
            | error e => simp
            | ok b =>
              cases b
              · simp
              · exfalso
                apply hcond
                refine ⟨?_, hm, hfe⟩
                simp only [isDatedJson, Bool.and_eq_true, bne_iff_ne]
                exact ⟨by simpa using hj, hl⟩
          · rw [if_neg hm]
            simp
    · simp only [cleanFiles]
      by_cases hj : isJsonName (fileName g) = false
      · simpa [hj] using List.mem_cons_of_mem g (ih hfrest)
      · rw [if_neg hj]
        by_cases hl : fileName g = "latest.json"
        · simpa [hl] using List.mem_cons_of_mem g (ih hfrest)
        · rw [if_neg hl]
          by_cases hm : g.mtime < cutoff
          · rw [if_pos hm]
            cases hfe : fileExists cold (s3KeyOf pre g) with
            | error e => simpa using List.mem_cons_of_mem g hfrest
            | ok b =>
              cases b
              · simpa using List.mem_cons_of_mem g (ih hfrest)
              · simpa using ih hfrest
          · rw [if_neg hm]
            simpa using List.mem_cons_of_mem g (ih hfrest)

theorem cleanFiles_count (cold : ColdTier) (pre : String) (cutoff : Int)
    (fs : List HotFile) (herr : (cleanFiles cold pre cutoff fs).err = none) :
    (cleanFiles cold pre cutoff fs).stats.kept +
      (cleanFiles cold pre cutoff fs).stats.deleted = jsonCount fs := by
  induction fs with
  | nil => simp [cleanFiles, jsonCount]
  | cons g rest ih =>
    simp only [cleanFiles] at herr ⊢
    by_cases hj : isJsonName (fileName g) = false
    · rw [if_pos hj] at herr ⊢
      dsimp only at herr ⊢
      rw [ih herr]
      simp [jsonCount, hj]
    · rw [if_neg hj] at herr ⊢
      have hjt : isJsonName (fileName g) = true := by simpa using hj
      have hcount : jsonCount (g :: rest) = jsonCount rest + 1 := by
        simp [jsonCount, hjt]
      by_cases hl : fileName g = "latest.json"
      · rw [if_pos hl] at herr ⊢
        dsimp only at herr ⊢
        have := ih herr
        simp only [hcount]
        omega
      · rw [if_neg hl] at herr ⊢
        by_cases hm : g.mtime < cutoff
        · rw [if_pos hm] at herr ⊢
          cases hfe : fileExists cold (s3KeyOf pre g) with
          | error e => rw [hfe] at herr; simp at herr
          | ok b =>
            rw [hfe] at herr
            cases b
            · dsimp only at herr ⊢
              have := ih herr
              simp only [hcount]
              omega
            · dsimp only at herr ⊢
              have := ih herr
              simp only [hcount]
              omega
        · rw [if_neg hm] at herr ⊢
          dsimp only at herr ⊢
          have := ih herr
          simp only [hcount]
          omega

theorem cleanFiles_unreachable (cold : ColdTier) (pre : String) (cutoff : Int)
    (fs : List HotFile) (h : cold.reachable = false) :
    (cleanFiles cold pre cutoff fs).files = fs ∧
      (cleanFiles cold pre cutoff fs).stats.deleted = 0 := by
  induction fs with
  | nil => simp [cleanFiles]
  | cons g rest ih =>
    simp only [cleanFiles]
    by_cases hj : isJsonName (fileName g) = false
    · rw [if_pos hj]
      exact ⟨by simp [ih.1], by simp [ih.2]⟩
    · rw [if_neg hj]
      by_cases hl : fileName g = "latest.json"
      · rw [if_pos hl]
        exact ⟨by simp [ih.1], by simp [ih.2]⟩
      · rw [if_neg hl]
        by_cases hm : g.mtime < cutoff
        · rw [if_pos hm, fileExists_unreachable cold _ h]
          exact ⟨rfl, rfl⟩
        · rw [if_neg hm]
          exact ⟨by simp [ih.1], by simp [ih.2]⟩

theorem cleanFiles_err_none (cold : ColdTier) (pre : String) (cutoff : Int)
    (fs : List HotFile) (h : cold.reachable = true) :
    (cleanFiles cold pre cutoff fs).err = none := by
  induction fs with
  | nil => rfl
  | cons g rest ih =>
    simp only [cleanFiles]
    by_cases hj : isJsonName (fileName g) = false
    · rw [if_pos hj]; exact ih
    · rw [if_neg hj]
      by_cases hl : fileName g = "latest.json"
      · rw [if_pos hl]; exact ih
      · rw [if_neg hl]
        by_cases hm : g.mtime < cutoff
        · rw [if_pos hm, fileExists_reachable cold _ h]
          cases hk : decide (s3KeyOf pre g ∈ cold.keys)
          · exact ih
          · exact ih
        · rw [if_neg hm]; exact ih

theorem cleanFiles_latest (cold : ColdTier) (pre : String) (cutoff : Int)
    (fs : List HotFile) :
    getFile? (cleanFiles cold pre cutoff fs).files ["latest.json"] =
      getFile? fs ["latest.json"] := by
  induction fs with
  | nil => rfl
  | cons g rest ih =>
    simp only [cleanFiles]
    by_cases hj : isJsonName (fileName g) = false
    · rw [if_pos hj]
      by_cases hg : g.rel = ["latest.json"] <;> simp [getFile?, hg, ih]
    · rw [if_neg hj]
      by_cases hl : fileName g = "latest.json"
      · rw [if_pos hl]
        by_cases hg : g.rel = ["latest.json"] <;> simp [getFile?, hg, ih]
      · rw [if_neg hl]
        have hg : g.rel ≠ ["latest.json"] := fun hcon => hl (rel_latest_fileName g hcon)
        by_cases hm : g.mtime < cutoff
        · rw [if_pos hm]
          cases hfe : fileExists cold (s3KeyOf pre g) with
          | error e => rfl
          | ok b =>
            cases b
            · simp [getFile?, hg, ih]
            · simpa [getFile?, hg] using ih
        · rw [if_neg hm]
          simp [getFile?, hg, ih]

theorem cleanupLocal_preserves (cold : ColdTier) (cutoff : Int) (dd : DataDir)
    (cn : String) (f : HotFile) (hmem : (cn, f) ∈ hotEntries dd)
    (hcond : ¬(isDatedJson f = true ∧ f.mtime < cutoff ∧
      fileExists cold (s3KeyOf cn f) = Except.ok true)) :
    (cn, f) ∈ hotEntries (cleanupLocal cold cutoff dd).dd := by
  induction dd with
  | nil => simp [hotEntries] at hmem
  | cons d ds ih =>
    simp only [hotEntries, List.flatMap_cons, List.mem_append] at hmem
    rcases hmem with hd | hds
    · have hcn : cn = d.cname := by
        rcases List.mem_map.1 hd with ⟨g, _, hg⟩
        exact (congrArg Prod.fst hg).symm
      have hfd : f ∈ d.files := by
        rcases List.mem_map.1 hd with ⟨g, hgmem, hg⟩
        have : g = f := congrArg Prod.snd hg
        exact this ▸ hgmem
      subst hcn
      have hpres := cleanFiles_preserves cold d.cname cutoff d.files f hfd hcond
      simp only [cleanupLocal]
      cases herr : (cleanFiles cold d.cname cutoff d.files).err with
      | some e =>
        simp only [hotEntries, List.flatMap_cons, List.mem_append]
        exact Or.inl (List.mem_map.2 ⟨f, hpres, rfl⟩)
      | none =>
        simp only [hotEntries, List.flatMap_cons, List.mem_append]
        exact Or.inl (List.mem_map.2 ⟨f, hpres, rfl⟩)
    · simp only [cleanupLocal]
      cases herr : (cleanFiles cold d.cname cutoff d.files).err with
      | some e =>
        simp only [hotEntries, List.flatMap_cons, List.mem_append]
        exact Or.inr (by simpa [hotEntries] using hds)
      | none =>
        simp only [hotEntries, List.flatMap_cons, List.mem_append]
        exact Or.inr (by simpa [hotEntries] using ih (by simpa [hotEntries] using hds))

theorem cleanupLocal_count (cold : ColdTier) (cutoff : Int) (dd : DataDir)
    (herr : (cleanupLocal cold cutoff dd).err = none) :
    (cleanupLocal cold cutoff dd).stats.kept +
      (cleanupLocal cold cutoff dd).stats.deleted = jsonCountDD dd := by
  induction dd with
  | nil => simp [cleanupLocal, jsonCountDD]
  | cons d ds ih =>
    simp only [cleanupLocal] at herr ⊢
    cases hr : (cleanFiles cold d.cname cutoff d.files).err with
    | some e => rw [hr] at herr; simp at herr
    | none =>
      rw [hr] at herr
      dsimp only at herr ⊢
      have h1 := cleanFiles_count cold d.cname cutoff d.files hr
      have h2 := ih herr
      simp only [jsonCountDD, List.map_cons, List.sum_cons]
      simp only [jsonCountDD] at h2
      omega

theorem cleanupLocal_unreachable (cold : ColdTier) (cutoff : Int) (dd : DataDir)
    (h : cold.reachable = false) :
    (cleanupLocal cold cutoff dd).dd = dd ∧
      (cleanupLocal cold cutoff dd).stats.deleted = 0 := by
  induction dd with
  | nil => simp [cleanupLocal]
  | cons d ds ih =>
    have hd := cleanFiles_unreachable cold d.cname cutoff d.files h
    simp only [cleanupLocal]
    cases hr : (cleanFiles cold d.cname cutoff d.files).err with
    | some e =>
      refine ⟨?_, rfl⟩
      dsimp only
      rw [hd.1]
    | none =>
      dsimp only
      refine ⟨?_, by rw [hd.2, ih.2]⟩
      rw [hd.1, ih.1]

theorem cleanupLocal_err_none (cold : ColdTier) (cutoff : Int) (dd : DataDir)
    (h : cold.reachable = true) :
    (cleanupLocal cold cutoff dd).err = none := by
  induction dd with
  | nil => rfl
  | cons d ds ih =>
    simp only [cleanupLocal]
    rw [cleanFiles_err_none cold d.cname cutoff d.files h]
    exact ih

theorem cleanupLocal_latest (cold : ColdTier) (cutoff : Int) (dd : DataDir)
    (c : String) :
    getLatest c (cleanupLocal cold cutoff dd).dd = getLatest c dd := by
  induction dd with
  | nil => rfl
  | cons d ds ih =>
    simp only [cleanupLocal]
    cases hr : (cleanFiles cold d.cname cutoff d.files).err with
    | some e =>
      by_cases hc : d.cname = c
      · simp [getLatest, getDir?, hc, cleanFiles_latest]
      · simp [getLatest, getDir?, hc]
    | none =>
      by_cases hc : d.cname = c
      · simp [getLatest, getDir?, hc, cleanFiles_latest]
      · simpa [getLatest, getDir?, hc] using ih

/-- Total dated entries across the data directory. -/
def datedCountDD (dd : DataDir) : Nat :=
  (dd.map (fun d => datedCount d.files)).sum

theorem syncToS3_cold_reachable (dd : DataDir) :
    ∀ cold : ColdTier, (syncToS3 cold dd).cold.reachable = cold.reachable := by
  induction dd with
  | nil => intro cold; rfl
  | cons d ds ih =>
    intro cold
    simp only [syncToS3, syncDirectory]
    cases hr : (syncFiles cold d.cname true d.files).err with
    | some e =>
      dsimp only
      exact syncFiles_cold_reachable d.cname true d.files cold
    | none =>
      dsimp only
      rw [ih (syncFiles cold d.cname true d.files).cold]
      exact syncFiles_cold_reachable d.cname true d.files cold

theorem syncToS3_cold_uploadOk (dd : DataDir) :
    ∀ cold : ColdTier, (syncToS3 cold dd).cold.uploadOk = cold.uploadOk := by
  induction dd with
  | nil => intro cold; rfl
  | cons d ds ih =>
    intro cold
    simp only [syncToS3, syncDirectory]
    cases hr : (syncFiles cold d.cname true d.files).err with
    | some e =>
      dsimp only
      exact syncFiles_cold_uploadOk d.cname true d.files cold
    | none =>
      dsimp only
      rw [ih (syncFiles cold d.cname true d.files).cold]
      exact syncFiles_cold_uploadOk d.cname true d.files cold

theorem syncToS3_err_none (dd : DataDir) :
    ∀ cold : ColdTier, cold.reachable = true → (syncToS3 cold dd).err = none := by
  induction dd with
  | nil => intro cold _; rfl
  | cons d ds ih =>
    intro cold hr
    simp only [syncToS3, syncDirectory]
    rw [syncFiles_err_none d.cname true d.files cold hr]
    dsimp only
    apply ih
    rw [syncFiles_cold_reachable]
    exact hr

theorem syncToS3_stats_total (dd : DataDir) :
    ∀ cold : ColdTier, (syncToS3 cold dd).err = none →
      (syncToS3 cold dd).stats.uploaded + (syncToS3 cold dd).stats.skipped +
        (syncToS3 cold dd).stats.failed = datedCountDD dd := by
  induction dd with
  | nil => intro cold _; simp [syncToS3, datedCountDD]
  | cons d ds ih =>
    intro cold herr
    simp only [syncToS3, syncDirectory] at herr ⊢
    cases hr : (syncFiles cold d.cname true d.files).err with
    | some e => rw [hr] at herr; simp at herr
    | none =>
      rw [hr] at herr
      dsimp only at herr ⊢
      have h1 := syncFiles_stats_total d.cname true d.files cold hr
      have h2 := ih (syncFiles cold d.cname true d.files).cold herr
      simp only [datedCountDD, List.map_cons, List.sum_cons]
      simp only [datedCountDD] at h2
      omega

/-- C1 (corrected).  The retention phase of `ArchiveTask.run` deletes a
dated hot entry only when its age exceeds the retention window
(`mtime < now - retention_days`) and the cold-tier existence check
(`S3Storage.file_exists` against the post-sync cold state) returned `True`
in the same run: every entry not meeting all of those conditions — in
particular every eligible entry whose cold copy is absent — is still
present afterwards.  Moreover, when the cold tier is unreachable no entry
is ever deleted: the hot directory is returned unchanged, and any
statistics that do get returned report zero deletions.  (The original
claim's further assertion that an unreachable cold tier leaves eligible
entries *counted as kept* is refuted separately: the connection error
escapes `file_exists` and aborts the run.) -/
theorem claim_C1_retention_safety (days : Nat) (cold : ColdTier) (dd : DataDir)
    (now : Int) (cn : String) (f : HotFile) :
    ((cn, f) ∈ hotEntries dd →
      ¬(isDatedJson f = true ∧ f.mtime < now - (days : Int) * 86400 ∧
        fileExists (syncToS3 cold dd).cold (s3KeyOf cn f) = Except.ok true) →
      (cn, f) ∈ hotEntries (archiveRun true days (some cold) dd now).dd)
    ∧ (cold.reachable = false →
        (archiveRun true days (some cold) dd now).dd = dd ∧
        ∀ res, (archiveRun true days (some cold) dd now).ret = some res →
          res.cleanup.deleted = 0) := by
  simp only [archiveRun]
  rw [if_neg (by simp)]
  cases hs : (syncToS3 cold dd).err with
  | some e =>
    dsimp only
    refine ⟨fun hmem _ => hmem, fun _ => ⟨rfl, fun res hres => by simp at hres⟩⟩
  | none =>
    dsimp only
    have hreach : (syncToS3 cold dd).cold.reachable = cold.reachable :=
      syncToS3_cold_reachable dd cold
    cases hc : (cleanupLocal (syncToS3 cold dd).cold (now - (days : Int) * 86400) dd).err with
    | some e =>
      dsimp only
      constructor
      · intro hmem hcond
        exact cleanupLocal_preserves _ _ dd cn f hmem hcond
      · intro hur
        have := cleanupLocal_unreachable (syncToS3 cold dd).cold
          (now - (days : Int) * 86400) dd (hreach.trans hur)
        exact ⟨this.1, fun res hres => by simp at hres⟩
    | none =>
      dsimp only
      constructor
      · intro hmem hcond
        exact cleanupLocal_preserves _ _ dd cn f hmem hcond
      · intro hur
        have hun := cleanupLocal_unreachable (syncToS3 cold dd).cold
          (now - (days : Int) * 86400) dd (hreach.trans hur)
        refine ⟨hun.1, fun res hres => ?_⟩
        have : res = ⟨(syncToS3 cold dd).stats,
            (cleanupLocal (syncToS3 cold dd).cold (now - (days : Int) * 86400) dd).stats⟩ := by
          simpa using hres.symm
        rw [this]
        exact hun.2

/-- C1 counterexample.  With one eligible dated entry and an unreachable
cold tier, the retention pass (`ArchiveTask._cleanup_local`) does not count
the entry as kept: the connection error escapes `file_exists` and aborts
the pass with no statistics at all (the entry does remain on disk). -/
theorem claim_C1_counterexample :
    (cleanupLocal ⟨[], false, false⟩ 100
        [⟨"a", [⟨["2020", "01", "01", "a_0000.json"], "x", 0⟩]⟩]).err =
      some PyErr.connError ∧
    (cleanupLocal ⟨[], false, false⟩ 100
        [⟨"a", [⟨["2020", "01", "01", "a_0000.json"], "x", 0⟩]⟩]).stats.kept = 0 := by
  constructor <;> rfl

/-- C2 (corrected).  When archiving is enabled, the cold tier is configured
and every cold-tier call completes without a connection-level failure
(`reachable = true`), `ArchiveTask.run` returns the aggregate
`{sync: {uploaded, skipped, failed}, cleanup: {deleted, kept}}` without
raising, and the two walks run to completion: the sync counters account for
every dated entry (per-entry upload failures are tallied in `failed`) and
the cleanup counters account for every walked file.  (The original claim's
"never raises for a single-file failure" is refuted separately for
connection-level errors during an existence check.) -/
theorem claim_C2_aggregate (days : Nat) (cold : ColdTier) (dd : DataDir)
    (now : Int) (hr : cold.reachable = true) :
    (archiveRun true days (some cold) dd now).err = none ∧
    ∃ res, (archiveRun true days (some cold) dd now).ret = some res ∧
      res.sync.uploaded + res.sync.skipped + res.sync.failed = datedCountDD dd ∧
      res.cleanup.kept + res.cleanup.deleted = jsonCountDD dd := by
  have hs := syncToS3_err_none dd cold hr
  have hreach : (syncToS3 cold dd).cold.reachable = true :=
    (syncToS3_cold_reachable dd cold).trans hr
  have hc := cleanupLocal_err_none (syncToS3 cold dd).cold
    (now - (days : Int) * 86400) dd hreach
  simp only [archiveRun]
  rw [if_neg (by simp)]
  rw [hs]
  dsimp only
  rw [hc]
  dsimp only
  refine ⟨rfl, ⟨(syncToS3 cold dd).stats,
    (cleanupLocal (syncToS3 cold dd).cold (now - (days : Int) * 86400) dd).stats⟩,
    rfl, ?_, ?_⟩
  · exact syncToS3_stats_total dd cold hs
  · exact cleanupLocal_count (syncToS3 cold dd).cold _ dd hc

/-- C2 counterexample.  With one dated entry and an unreachable cold tier,
`ArchiveTask.run` (archiving enabled, S3 configured) raises a connection
error out of the first existence check instead of returning the aggregate:
no `{sync, cleanup}` result is produced. -/
theorem claim_C2_counterexample :
    (archiveRun true 7 (some ⟨[], false, false⟩)
        [⟨"a", [⟨["2020", "01", "01", "a_0000.json"], "x", 0⟩]⟩] 1000000).ret = none ∧
    (archiveRun true 7 (some ⟨[], false, false⟩)
        [⟨"a", [⟨["2020", "01", "01", "a_0000.json"], "x", 0⟩]⟩] 1000000).err =
      some PyErr.connError := by
  constructor <;> rfl

/-- C7 (confirmed).  `sync_directory` is idempotent: with a cold tier whose
requests complete (`reachable`) and whose uploads succeed (`uploadOk`),
running `sync_directory` twice with `skip_existing=True` and no new hot
entries in between yields, on the second run, no error, `uploaded = 0`,
`failed = 0`, and `skipped` equal to the number of dated entries under the
directory, with the cold tier unchanged. -/
theorem claim_C7_idempotent_sync (cold : ColdTier) (d : CollectorDir)
    (hr : cold.reachable = true) (hu : cold.uploadOk = true) :
    syncDirectory (syncDirectory cold d true).cold d true =
      ⟨none, ⟨0, datedCount d.files, 0⟩, (syncDirectory cold d true).cold⟩ := by
  unfold syncDirectory
  apply syncFiles_all_present
  · rw [syncFiles_cold_reachable]; exact hr
  · intro f hf hd
    exact syncFiles_covers d.cname d.files cold hr hu f hf hd

/-- C7 witness: a directory with one dated entry, an empty reliable cold
tier; the second sync skips exactly that entry. -/
theorem claim_C7_witness :
    syncDirectory
        (syncDirectory ⟨[], true, true⟩
          ⟨"a", [⟨["2020", "01", "01", "a_0000.json"], "x", 0⟩]⟩ true).cold
        ⟨"a", [⟨["2020", "01", "01", "a_0000.json"], "x", 0⟩]⟩ true =
      ⟨none, ⟨0, 1, 0⟩,
        (syncDirectory ⟨[], true, true⟩
          ⟨"a", [⟨["2020", "01", "01", "a_0000.json"], "x", 0⟩]⟩ true).cold⟩ := by
  have h := claim_C7_idempotent_sync ⟨[], true, true⟩
    ⟨"a", [⟨["2020", "01", "01", "a_0000.json"], "x", 0⟩]⟩ rfl rfl
  rw [h]
  rfl

/-- C10 (confirmed).  When archiving is disabled (`ARCHIVE_ENABLED=false`)
or no cold tier is configured (`self.s3 is None`: no bucket, or S3
initialisation failed), `ArchiveTask.run` returns `None` — no `{sync,
cleanup}` aggregate — raises nothing, and performs neither the sync phase
nor the retention phase: both tiers are returned unchanged. -/
theorem claim_C10_disabled_returns_none (days : Nat) (s3 : Option ColdTier)
    (dd : DataDir) (now : Int) :
    archiveRun false days s3 dd now = ⟨none, none, dd, s3⟩ ∧
    archiveRun true days none dd now = ⟨none, none, dd, none⟩ :=
  ⟨rfl, rfl⟩

/-! Read path of the API server (`api/server.py`). -/

/-- The most recently modified file of a list, ties resolved in favour of
the earlier position — the element `files[0]` of CPython's stable
`sorted(files, key=mtime, reverse=True)`. -/
def newestFile : List HotFile → Option HotFile
  | [] => none
  | f :: rest =>
    match newestFile rest with
    | none => some f
    | some g => if g.mtime > f.mtime then some g else some f

/-- Translation of the `/api/data/<collector>/latest` handler
(`api/server.py`, `get_latest`): 404 when the collector directory is
missing; otherwise serve `latest.json` when present, else the most
recently modified dated `*.json` file, else 404.  The `s3` argument — the
process-wide `_s3_storage` available to every handler — is present but
unused: this handler never consults the cold tier. -/
def serverGetLatest (dd : DataDir) (s3 : Option ColdTier) (c : String) :
    Option String :=
  match getDir? dd c with
  | none => none
  | some d =>
    match getFile? d.files ["latest.json"] with
    | some f => some f.body
    | none =>
      match newestFile (d.files.filter (fun f => isDatedJson f)) with
      | some f => some f.body
      | none => none

theorem newestFile_eq_none (fs : List HotFile) :
    newestFile fs = none ↔ fs = [] := by
  cases fs with
  | nil => simp [newestFile]
  | cons f rest =>
    simp only [newestFile]
    constructor
    · intro h
      cases hr : newestFile rest with
      | none => rw [hr] at h; simp at h
      | some g =>
        rw [hr] at h
        by_cases hm : g.mtime > f.mtime <;> simp [hm] at h
    · intro h; simp at h

/-- C5 (corrected).  The `latest` read path consults only the hot tier: its
result is independent of the cold tier; when the hot pointer
`latest.json` is present its body is served; and it reports `NotFound`
exactly when the hot tier has neither the collector directory nor — when
the pointer is missing — any dated entry.  The cold tier's
`S3Storage.get_latest` is never invoked. -/
theorem claim_C5_latest_hot_only (dd : DataDir) (s3 s3' : Option ColdTier)
    (c : String) :
    serverGetLatest dd s3 c = serverGetLatest dd s3' c ∧
    (∀ d f, getDir? dd c = some d → getFile? d.files ["latest.json"] = some f →
      serverGetLatest dd s3 c = some f.body) ∧
    (serverGetLatest dd s3 c = none ↔
      (getDir? dd c = none ∨ ∃ d, getDir? dd c = some d ∧
        getFile? d.files ["latest.json"] = none ∧
        d.files.filter (fun f => isDatedJson f) = [])) := by
  refine ⟨rfl, ?_, ?_⟩
  · intro d f hd hf
    simp [serverGetLatest, hd, hf]
  · unfold serverGetLatest
    cases hd : getDir? dd c with
    | none => simp
    | some d =>
      dsimp only
      cases hf : getFile? d.files ["latest.json"] with
      | some f =>
        dsimp only
        constructor
        · intro h; exact absurd h (by simp)
        · rintro (h | ⟨d', hd', hf', hemp⟩)
          · exact absurd h (by simp)
          · cases Option.some.inj hd'
            rw [hf] at hf'
            exact absurd hf' (by simp)
      | none =>
        dsimp only
        cases hn : newestFile (d.files.filter (fun f => isDatedJson f)) with
        | some g =>
          dsimp only
          constructor
          · intro h; exact absurd h (by simp)
          · rintro (h | ⟨d', hd', hf', hemp⟩)
            · exact absurd h (by simp)
            · cases Option.some.inj hd'
              rw [hemp] at hn
              exact absurd hn (by simp [newestFile])
        | none =>
          dsimp only
          constructor
          · intro _
            exact Or.inr ⟨d, rfl, hf, (newestFile_eq_none _).1 hn⟩
          · intro _; rfl

/-- C5 witness: a hot directory with a pointer is served from the pointer. -/
theorem claim_C5_witness :
    serverGetLatest [⟨"a", [⟨["latest.json"], "v", 5⟩]⟩] none "a" = some "v" :=
  (claim_C5_latest_hot_only [⟨"a", [⟨["latest.json"], "v", 5⟩]⟩] none none
    "a").2.1 ⟨"a", [⟨["latest.json"], "v", 5⟩]⟩ ⟨["latest.json"], "v", 5⟩ rfl rfl

/-- C5 counterexample.  With no hot data for the collector and a cold tier
holding a latest record, the handler returns `NotFound` (`404`) instead of
falling back to `Cold.get_latest` as the claim requires. -/
theorem claim_C5_counterexample :
    serverGetLatest [] (some ⟨[("a/latest.json", "cold-latest")], true, true⟩)
        "a" = none ∧
    coldGetLatest ⟨[("a/latest.json", "cold-latest")], true, true⟩ "a" =
      Except.ok (some "cold-latest") := by
  constructor <;> rfl

/-- Boolean substring containment on character lists; `hasInfix sub l`
decides whether `sub` occurs contiguously inside `l`, which is Python's
`sub in s` on strings. -/
def hasInfix (sub : List Char) : List Char → Bool
  | [] => sub.isEmpty
  | c :: rest => sub.isPrefixOf (c :: rest) || hasInfix sub rest

/-- Python's `in` operator on strings. -/
def pyContains (s sub : String) : Bool := hasInfix sub.data s.data

/-- Response classes of the download handler. -/
inductive DlResp where
  | invalid
  | okLocal (body : String)
  | okS3 (body : String)
  | notFound
  | raised (e : PyErr)
  deriving DecidableEq, Repr

/-- Translation of the `/api/download/<collector>/<path>` handler
(`api/server.py`, `download_file`): reject any path containing `..`
before doing anything else; otherwise try the hot file at
`LOCAL_DATA_DIR/<collector>/<filepath>`, then the cold object at
`<collector>/<filepath>` (an empty body is falsy and yields 404), else
404.  A connection-level error from the cold read propagates. -/
def downloadFile (dd : DataDir) (s3 : Option ColdTier) (c : String)
    (fp : String) : DlResp :=
  if pyContains fp ".." then DlResp.invalid
  else
    match (getDir? dd c).bind (fun d => getFile? d.files (fp.splitOn "/")) with
    | some f => DlResp.okLocal f.body
    | none =>
      match s3 with
      | none => DlResp.notFound
      | some cold =>
        match getFileS3 cold (c ++ "/" ++ fp) with
        | Except.error e => DlResp.raised e
        | Except.ok none => DlResp.notFound
        | Except.ok (some b) => if b = "" then DlResp.notFound else DlResp.okS3 b

/-- The relative path has a `..` path segment: its character stream
decomposes as `pre ++ ".." ++ post` with `pre` empty or ending in `/` and
`post` empty or starting with `/`. -/
def hasDotDotSegment (fp : String) : Prop :=
  ∃ pre post : List Char,
    fp.data = pre ++ ('.' :: '.' :: []) ++ post ∧
    (pre = [] ∨ ∃ pre2, pre = pre2 ++ ['/']) ∧
    (post = [] ∨ ∃ post2, post = '/' :: post2)

theorem isPrefixOf_append_self (sub post : List Char) :
    sub.isPrefixOf (sub ++ post) = true := by
  induction sub with
  | nil => simp [List.isPrefixOf]
  | cons c cs ih => simp [List.isPrefixOf, ih]

theorem hasInfix_of_decomp (sub pre post l : List Char)
    (h : l = pre ++ sub ++ post) : hasInfix sub l = true := by
  induction pre generalizing l with
  | nil =>
    subst h
    cases hs : (sub ++ post : List Char) with
    | nil =>
      rcases List.append_eq_nil.1 hs with ⟨h1, h2⟩
      simp [hasInfix, h1, h2, hs]
    | cons c rest =>
      simp only [List.nil_append] at *
      rw [hs]
      simp [hasInfix, ← hs, isPrefixOf_append_self]
  | cons c cs ih =>
    subst h
    simp only [List.cons_append, hasInfix, Bool.or_eq_true]
    right
    have := ih (cs ++ sub ++ post) rfl
    simpa [List.append_assoc] using this

/-- C8 (confirmed).  For every collector name and every relative path
containing a `..` segment, the download handler answers `InvalidInput`
(HTTP 400) uniformly in the state of both tiers — the rejection happens
before the hot path is probed or any cold request is issued, so no
filesystem or network read is performed. -/
theorem claim_C8_path_traversal (c fp : String) (h : hasDotDotSegment fp) :
    ∀ (dd : DataDir) (s3 : Option ColdTier),
      downloadFile dd s3 c fp = DlResp.invalid := by
  obtain ⟨pre, post, hdata, -, -⟩ := h
  have hc : pyContains fp ".." = true := by
    unfold pyContains
    exact hasInfix_of_decomp _ pre post _ (by simpa using hdata)
  intro dd s3
  unfold downloadFile
  rw [if_pos hc]

/-- C8 witness: the spec's own example `../../etc/passwd` is rejected
regardless of tier contents. -/
theorem claim_C8_witness :
    downloadFile [⟨"s", [⟨["latest.json"], "v", 0⟩]⟩]
        (some ⟨[("s/x", "y")], true, true⟩) "s" "../../etc/passwd" =
      DlResp.invalid :=
  claim_C8_path_traversal "s" "../../etc/passwd"
    ⟨[], "/../etc/passwd".data, rfl, Or.inl rfl,
      Or.inr ⟨"../etc/passwd".data, rfl⟩⟩
    [⟨"s", [⟨["latest.json"], "v", 0⟩]⟩] (some ⟨[("s/x", "y")], true, true⟩)

/-! Token cache (`utils/auth.py`, `TDXAuth`). -/

/-- Cached lease state: `_access_token` (initially `None`) and
`_token_expiry` (initially `0`), epoch seconds. -/
structure AuthState where
  accessToken : Option String
  tokenExpiry : Int
  deriving DecidableEq, Repr

/-- Outcome of the `requests.post` credential exchange: a 2xx response
carrying `access_token` and optionally `expires_in`; a non-2xx response
(`raise_for_status` raises); or a network failure. -/
inductive ExchangeOutcome where
  | ok (token : String) (expiresIn : Option Int)
  | httpError (status : Nat)
  | netError
  deriving DecidableEq, Repr

/-- The exception classes escaping `get_access_token`. -/
inductive AuthFail where
  | httpError (status : Nat)
  | netError
  deriving DecidableEq, Repr

/-- Result of one `get_access_token` call: the returned token or the
escaped exception, the cache state afterwards, and whether a network
request was issued. -/
structure TokenFetch where
  res : Except AuthFail String
  st : AuthState
  network : Bool
  deriving Repr

/-- Python truthiness of the cached token (`if self._access_token and ...`):
`None` and the empty string are falsy. -/
def pyTruthy : Option String → Bool
  | none => false
  | some s => !(s == "")

/-- The cache-hit condition of `get_access_token`:
`self._access_token and time.time() < self._token_expiry - 300` — the
lease is used only while `now < issued_at + ttl - margin` with a safety
margin of exactly 300 seconds. -/
def cacheValid (st : AuthState) (now : Int) : Bool :=
  pyTruthy st.accessToken && decide (now < st.tokenExpiry - 300)

/-- Translation of `TDXAuth.get_access_token` (`utils/auth.py`): return the
cached token with no network call while the lease is valid; otherwise
perform the synchronous exchange; on a 2xx response cache the token with
expiry `now + expires_in` (default 86400) and return it; on a non-2xx or
network failure the exception propagates and the cache is left untouched. -/
def getAccessToken (st : AuthState) (now : Int) (x : ExchangeOutcome) :
    TokenFetch :=
  if cacheValid st now then ⟨Except.ok (st.accessToken.getD ""), st, false⟩
  else
    match x with
    | ExchangeOutcome.netError => ⟨Except.error AuthFail.netError, st, true⟩
    | ExchangeOutcome.httpError s => ⟨Except.error (AuthFail.httpError s), st, true⟩
    | ExchangeOutcome.ok tok expIn =>
      ⟨Except.ok tok, ⟨some tok, now + expIn.getD 86400⟩, true⟩

/-- Translation of `TDXAuth.get_auth_header` (`utils/auth.py`): wrap the
token in the `authorization: Bearer ...` header (plus `Accept-Encoding`);
an exception from the token fetch propagates. -/
def getAuthHeader (st : AuthState) (now : Int) (x : ExchangeOutcome) :
    Except AuthFail (List (String × String)) × AuthState × Bool :=
  let r := getAccessToken st now x
  match r.res with
  | Except.ok tok =>
    (Except.ok [("authorization", "Bearer " ++ tok), ("Accept-Encoding", "gzip")],
     r.st, r.network)
  | Except.error e => (Except.error e, r.st, r.network)

/-- C9 (confirmed).  While the cached lease is valid
(`now < issued_at + ttl - 300`, a margin of at least 300 seconds) the
header is served from the cache with no network call and no state change;
when no valid lease exists a synchronous exchange is performed; and on
exchange failure the error propagates with no new lease cached, so any
later call (`now' ≥ now`) performs the exchange again. -/
theorem claim_C9_token_lease (st : AuthState) (now : Int) (x : ExchangeOutcome) :
    (cacheValid st now = true →
      getAccessToken st now x = ⟨Except.ok (st.accessToken.getD ""), st, false⟩ ∧
      getAuthHeader st now x =
        (Except.ok [("authorization", "Bearer " ++ st.accessToken.getD ""),
          ("Accept-Encoding", "gzip")], st, false)) ∧
    (cacheValid st now = false → (getAccessToken st now x).network = true) ∧
    (∀ e, (getAccessToken st now x).res = Except.error e →
      (getAccessToken st now x).st = st ∧
      ∀ (now' : Int) (x' : ExchangeOutcome), now ≤ now' →
        (getAccessToken (getAccessToken st now x).st now' x').network = true) := by
  by_cases hv : cacheValid st now = true
  · refine ⟨fun _ => ⟨?_, ?_⟩, fun hf => absurd (hv.symm.trans hf) (by simp), ?_⟩
    · unfold getAccessToken
      rw [if_pos hv]
    · unfold getAuthHeader getAccessToken
      rw [if_pos hv]
    · intro e he
      unfold getAccessToken at he
      rw [if_pos hv] at he
      exact absurd he (by simp)
  · have hv' : cacheValid st now = false := by simpa using hv
    refine ⟨fun h => absurd (h.symm.trans hv') (by simp), fun _ => ?_, ?_⟩
    · unfold getAccessToken
      rw [if_neg hv]
      cases x <;> rfl
    · intro e he
      have hst : (getAccessToken st now x).st = st := by
        unfold getAccessToken at he ⊢
        rw [if_neg hv] at he ⊢
        cases x with
        | ok tok expIn => exact absurd he (by simp)
        | httpError s => rfl
        | netError => rfl
      refine ⟨hst, fun now' x' hle => ?_⟩
      rw [hst]
      have hv'' : cacheValid st now' = false := by
        unfold cacheValid at hv' ⊢
        cases hp : pyTruthy st.accessToken with
        | false => simp [hp]
        | true =>
          rw [hp] at hv'
          simp only [Bool.true_and] at hv' ⊢
          simp only [decide_eq_false_iff_not] at hv'
          have : ¬ now' < st.tokenExpiry - 300 := by omega
          simpa using this
      unfold getAccessToken
      rw [if_neg (by simp [hv''])]
      cases x' <;> rfl

/-- C9 witness: a valid lease is served from the cache with no network
call; after a failed exchange (empty cache) the next call hits the
network again. -/
theorem claim_C9_witness :
    getAccessToken ⟨some "tok", 1000⟩ 0 ExchangeOutcome.netError =
      ⟨Except.ok "tok", ⟨some "tok", 1000⟩, false⟩ ∧
    (getAccessToken (getAccessToken ⟨none, 0⟩ 5 ExchangeOutcome.netError).st 6
      ExchangeOutcome.netError).network = true := by
  constructor
  · exact ((claim_C9_token_lease ⟨some "tok", 1000⟩ 0
      ExchangeOutcome.netError).1 (by decide)).1
  · exact ((claim_C9_token_lease ⟨none, 0⟩ 5 ExchangeOutcome.netError).2.2
      AuthFail.netError rfl).2 6 ExchangeOutcome.netError (by decide)

/-! Run loop (`collectors/base.py`, `BaseCollector.run`) and notifications
(`utils/notify.py`). -/

/-- Per-collector loop state: `run_count`, `error_count`, `last_run`. -/
structure CollectorState where
  runCount : Nat
  errorCount : Nat
  lastRun : Option DateTime
  deriving DecidableEq, Repr

/-- The notification environment: configured sinks and whether the
outbound `requests.post` succeeds this cycle. -/
structure NotifyEnv where
  webhookUrl : Option String
  lineToken : Option String
  postOk : Bool
  deriving DecidableEq, Repr

/-- The outbound HTTP post a notification performs. -/
def postRequest (env : NotifyEnv) : Except String Unit :=
  if env.postOk then Except.ok () else Except.error "network error"

/-- Translation of `send_webhook` (`utils/notify.py`): no-op when
`WEBHOOK_URL` is unset; otherwise post, catching every exception. -/
def sendWebhook (env : NotifyEnv) : Except String Unit :=
  match env.webhookUrl with
  | none => Except.ok ()
  | some _ =>
    match postRequest env with
    | Except.ok _ => Except.ok ()
    | Except.error _ => Except.ok ()

/-- Translation of `send_line_notify` (`utils/notify.py`). -/
def sendLineNotify (env : NotifyEnv) : Except String Unit :=
  match env.lineToken with
  | none => Except.ok ()
  | some _ =>
    match postRequest env with
    | Except.ok _ => Except.ok ()
    | Except.error _ => Except.ok ()

/-- Translation of `notify_success` (`utils/notify.py`). -/
def notifySuccess (env : NotifyEnv) : Except String Unit := sendWebhook env

/-- Translation of `notify_error` (`utils/notify.py`): webhook then LINE,
sequenced as the source does. -/
def notifyError (env : NotifyEnv) : Except String Unit :=
  match sendWebhook env with
  | Except.ok _ => sendLineNotify env
  | Except.error e => Except.error e

theorem sendWebhook_ok (env : NotifyEnv) : sendWebhook env = Except.ok () := by
  unfold sendWebhook postRequest
  cases env.webhookUrl with
  | none => rfl
  | some u =>
    dsimp only
    by_cases h : env.postOk = true
    · rw [if_pos h]
    · rw [if_neg h]

theorem sendLineNotify_ok (env : NotifyEnv) :
    sendLineNotify env = Except.ok () := by
  unfold sendLineNotify postRequest
  cases env.lineToken with
  | none => rfl
  | some u =>
    dsimp only
    by_cases h : env.postOk = true
    · rw [if_pos h]
    · rw [if_neg h]

theorem notifySuccess_ok (env : NotifyEnv) :
    notifySuccess env = Except.ok () := by
  unfold notifySuccess; rw [sendWebhook_ok]

theorem notifyError_ok (env : NotifyEnv) : notifyError env = Except.ok () := by
  unfold notifyError; rw [sendWebhook_ok, sendLineNotify_ok]

/-- The run outcome dictionary: on success `{'timestamp', 'run_count',
**stats-without-data}`, on failure `{'timestamp', 'error',
'error_count'}`. -/
inductive RunOutcome where
  | success (timestamp : DateTime) (runCount : Nat) (extra : List (String × String))
  | failure (timestamp : DateTime) (error : String) (errorCount : Nat)
  deriving DecidableEq, Repr

/-- Python's `'data' in result` on the collect-result dictionary. -/
def hasData (result : List (String × String)) : Bool :=
  (result.lookup "data").isSome

/-- Translation of `BaseCollector.run` (`collectors/base.py`): increment
`run_count`, stamp the timestamp, then inside a `try`: collect, save when
the result has a `data` key, set `last_run`, notify success, and return
the stats; any exception lands in the `except` block, which increments
`error_count`, notifies, and returns an error outcome instead of raising.
The outcomes of the collaborators — `collect()` and `storage.save` — are
passed in as `Except` values. -/
def collectorRun (st : CollectorState) (now : DateTime)
    (collectRes : Except String (List (String × String)))
    (saveRes : Except String Unit) (env : NotifyEnv) :
    CollectorState × RunOutcome :=
  let st1 : CollectorState := { st with runCount := st.runCount + 1 }
  match collectRes with
  | Except.error e =>
    let st2 := { st1 with errorCount := st1.errorCount + 1 }
    let _ := notifyError env
    (st2, RunOutcome.failure now e st2.errorCount)
  | Except.ok result =>
    match (if hasData result then saveRes else Except.ok ()) with
    | Except.error e =>
      let st2 := { st1 with errorCount := st1.errorCount + 1 }
      let _ := notifyError env
      (st2, RunOutcome.failure now e st2.errorCount)
    | Except.ok _ =>
      let extra := result.filter (fun kv => kv.1 != "data")
      let st2 := { st1 with lastRun := some now }
      match notifySuccess env with
      | Except.ok _ => (st2, RunOutcome.success now st1.runCount extra)
      | Except.error e =>
        let st3 := { st2 with errorCount := st2.errorCount + 1 }
        (st3, RunOutcome.failure now e st3.errorCount)

/-- Does this cycle fail?  Exactly when `collect()` raises, or the result
has data and the save raises. -/
def cycleFails (collectRes : Except String (List (String × String)))
    (saveRes : Except String Unit) : Bool :=
  match collectRes with
  | Except.error _ => true
  | Except.ok result =>
    hasData result &&
      (match saveRes with | Except.error _ => true | Except.ok _ => false)

theorem collectorRun_collect_error (st : CollectorState) (now : DateTime)
    (e : String) (sres : Except String Unit) (env : NotifyEnv) :
    collectorRun st now (Except.error e) sres env =
      ({ st with runCount := st.runCount + 1, errorCount := st.errorCount + 1 },
       RunOutcome.failure now e (st.errorCount + 1)) := rfl

theorem collectorRun_save_error (st : CollectorState) (now : DateTime)
    (result : List (String × String)) (e : String) (env : NotifyEnv)
    (hd : hasData result = true) :
    collectorRun st now (Except.ok result) (Except.error e) env =
      ({ st with runCount := st.runCount + 1, errorCount := st.errorCount + 1 },
       RunOutcome.failure now e (st.errorCount + 1)) := by
  unfold collectorRun
  dsimp only
  rw [if_pos hd]

theorem collectorRun_saved (st : CollectorState) (now : DateTime)
    (result : List (String × String)) (env : NotifyEnv)
    (hd : hasData result = true) :
    collectorRun st now (Except.ok result) (Except.ok ()) env =
      ({ st with runCount := st.runCount + 1, lastRun := some now },
       RunOutcome.success now (st.runCount + 1)
         (result.filter (fun kv => kv.1 != "data"))) := by
  unfold collectorRun
  dsimp only
  rw [if_pos hd, notifySuccess_ok]

theorem collectorRun_no_data (st : CollectorState) (now : DateTime)
    (result : List (String × String)) (sres : Except String Unit)
    (env : NotifyEnv) (hd : hasData result = false) :
    collectorRun st now (Except.ok result) sres env =
      ({ st with runCount := st.runCount + 1, lastRun := some now },
       RunOutcome.success now (st.runCount + 1)
         (result.filter (fun kv => kv.1 != "data"))) := by
  unfold collectorRun
  dsimp only
  rw [if_neg (by simp [hd]), notifySuccess_ok]

/-- C3 (confirmed).  `run()` never raises — it is a total function into
`CollectorState × RunOutcome`: it increments `run_count` on every call,
additionally increments `error_count` exactly when the cycle fails, on
failure returns an outcome carrying the error message (and the new error
count) rather than propagating, and its result is entirely independent of
the notification environment, including notification delivery failures. -/
theorem claim_C3_run_loop (st : CollectorState) (now : DateTime)
    (cres : Except String (List (String × String))) (sres : Except String Unit)
    (env env' : NotifyEnv) :
    (collectorRun st now cres sres env).1.runCount = st.runCount + 1 ∧
    (collectorRun st now cres sres env).1.errorCount =
      st.errorCount + (if cycleFails cres sres = true then 1 else 0) ∧
    (cycleFails cres sres = true → ∃ msg,
      (collectorRun st now cres sres env).2 =
        RunOutcome.failure now msg (st.errorCount + 1)) ∧
    (cycleFails cres sres = false → ∃ extra,
      (collectorRun st now cres sres env).2 =
        RunOutcome.success now (st.runCount + 1) extra) ∧
    collectorRun st now cres sres env = collectorRun st now cres sres env' := by
  cases cres with
  | error e =>
    rw [collectorRun_collect_error st now e sres env,
      collectorRun_collect_error st now e sres env']
    have hcf : cycleFails (Except.error e) sres = true := rfl
    refine ⟨rfl, by rw [hcf]; simp, fun _ => ⟨e, rfl⟩, ?_, rfl⟩
    intro hfalse
    rw [hcf] at hfalse
    simp at hfalse
  | ok result =>
    by_cases hd : hasData result = true
    · cases sres with
      | error e =>
        rw [collectorRun_save_error st now result e env hd,
          collectorRun_save_error st now result e env' hd]
        have hcf : cycleFails (Except.ok result) (Except.error e) = true := by
          simp [cycleFails, hd]
        refine ⟨rfl, by rw [hcf]; simp, fun _ => ⟨e, rfl⟩, ?_, rfl⟩
        intro hfalse
        rw [hcf] at hfalse
        simp at hfalse
      | ok u =>
        cases u
        rw [collectorRun_saved st now result env hd,
          collectorRun_saved st now result env' hd]
        have hcf : cycleFails (Except.ok result) (Except.ok ()) = false := by
          simp [cycleFails]
        refine ⟨rfl, by rw [hcf]; simp, ?_, fun _ => ⟨_, rfl⟩, rfl⟩
        intro htrue
        rw [hcf] at htrue
        simp at htrue
    · have hdf : hasData result = false := by simpa using hd
      rw [collectorRun_no_data st now result sres env hdf,
        collectorRun_no_data st now result sres env' hdf]
      have hcf : cycleFails (Except.ok result) sres = false := by
        simp [cycleFails, hdf]
      refine ⟨rfl, by rw [hcf]; simp, ?_, fun _ => ⟨_, rfl⟩, rfl⟩
      intro htrue
      rw [hcf] at htrue
      simp at htrue

/-- C3 witness: a failing collect on a fresh collector yields a failure
outcome carrying the message and error count 1. -/
theorem claim_C3_witness :
    ∃ msg, (collectorRun ⟨0, 0, none⟩ ⟨2025, 1, 1, 0, 0⟩
      (Except.error "boom") (Except.ok ()) ⟨none, none, true⟩).2 =
        RunOutcome.failure ⟨2025, 1, 1, 0, 0⟩ msg (0 + 1) :=
  (claim_C3_run_loop ⟨0, 0, none⟩ ⟨2025, 1, 1, 0, 0⟩ (Except.error "boom")
    (Except.ok ()) ⟨none, none, true⟩ ⟨none, none, false⟩).2.2.1 rfl

/-- C4 (corrected).  The latest pointer is overwritten by every `save`,
never removed by the retention pass (which skips `latest.json`), and
`get_latest` returns the body of the most recent `save`.  However —
amending the original claim — the `save_append` write path records dated
JSONL entries without updating the pointer at all. -/
theorem claim_C4_latest_pointer (c c' : String) (data : String)
    (records : List String) (ts ts' : DateTime) (mt mt' : Int) (dd : DataDir)
    (cold : ColdTier) (cutoff : Int) :
    getLatest c (save c data ts mt dd).1 = some data ∧
    getLatest c' (saveAppend c records ts' mt' dd).1 = getLatest c' dd ∧
    getLatest c' (cleanupLocal cold cutoff dd).dd = getLatest c' dd :=
  ⟨getLatest_save c data ts mt dd,
   getLatest_saveAppend c c' records ts' mt' dd,
   cleanupLocal_latest cold cutoff dd c'⟩

/-- C4 counterexample.  `save_append` writes the record `"r2"` yet the
latest pointer still holds the earlier `save`'s body `"r1"`: the pointer
is not overwritten on every write of a record. -/
theorem claim_C4_counterexample :
    getLatest "a" (saveAppend "a" ["r2"] ⟨2025, 1, 2, 3, 5⟩ 11
        (save "a" "r1" ⟨2025, 1, 2, 3, 4⟩ 10 []).1).1 = some "r1" ∧
    ("r1" : String) ≠ "r2" := by
  exact ⟨rfl, by decide⟩

/-- C6 (confirmed).  Hot-tier latest round-trip: `save(s, r, t)` followed
immediately by `get_latest(s)` returns the saved record. -/
theorem claim_C6_latest_round_trip (c : String) (data : String) (ts : DateTime)
    (mt : Int) (dd : DataDir) :
    getLatest c (save c data ts mt dd).1 = some data :=
  getLatest_save c data ts mt dd

/-- C1 witness: with an unreachable cold tier and one eligible entry, the
entry survives the archive run and the hot directory is unchanged. -/
theorem claim_C1_witness :
    ("a", (⟨["2020", "01", "01", "a_0000.json"], "x", 0⟩ : HotFile)) ∈
      hotEntries (archiveRun true 7 (some ⟨[], false, false⟩)
        [⟨"a", [⟨["2020", "01", "01", "a_0000.json"], "x", 0⟩]⟩] 1000000).dd ∧
    (archiveRun true 7 (some ⟨[], false, false⟩)
        [⟨"a", [⟨["2020", "01", "01", "a_0000.json"], "x", 0⟩]⟩] 1000000).dd =
      [⟨"a", [⟨["2020", "01", "01", "a_0000.json"], "x", 0⟩]⟩] := by
  have h := claim_C1_retention_safety 7 ⟨[], false, false⟩
    [⟨"a", [⟨["2020", "01", "01", "a_0000.json"], "x", 0⟩]⟩] 1000000 "a"
    ⟨["2020", "01", "01", "a_0000.json"], "x", 0⟩
  have heval : fileExists (syncToS3 (⟨[], false, false⟩ : ColdTier)
      [⟨"a", [⟨["2020", "01", "01", "a_0000.json"], "x", 0⟩]⟩]).cold
      (s3KeyOf "a" ⟨["2020", "01", "01", "a_0000.json"], "x", 0⟩) =
      Except.error PyErr.connError := rfl
  refine ⟨h.1 (by decide) ?_, (h.2 rfl).1⟩
  intro hcon
  exact Except.noConfusion (heval.symm.trans hcon.2.2)

/-- C2 witness: a reachable cold tier whose uploads fail — the run still
returns the aggregate, with the failed upload tallied. -/
theorem claim_C2_witness :
    (archiveRun true 7 (some ⟨[], true, false⟩)
        [⟨"a", [⟨["2020", "01", "01", "a_0000.json"], "x", 0⟩]⟩] 1000000).err =
      none ∧
    ∃ res, (archiveRun true 7 (some ⟨[], true, false⟩)
        [⟨"a", [⟨["2020", "01", "01", "a_0000.json"], "x", 0⟩]⟩] 1000000).ret =
        some res ∧
      res.sync.uploaded + res.sync.skipped + res.sync.failed =
        datedCountDD [⟨"a", [⟨["2020", "01", "01", "a_0000.json"], "x", 0⟩]⟩] ∧
      res.cleanup.kept + res.cleanup.deleted =
        jsonCountDD [⟨"a", [⟨["2020", "01", "01", "a_0000.json"], "x", 0⟩]⟩] :=
  claim_C2_aggregate 7 ⟨[], true, false⟩
    [⟨"a", [⟨["2020", "01", "01", "a_0000.json"], "x", 0⟩]⟩] 1000000 rfl

end GisCollectors
